import Mathlib

/-!
# Verification of `post_reels.py`

A shallow embedding, in Lean 4, of the Instagram-Reel uploader script
`post_reels.py`, together with theorems checking the claims of the
natural-language specification against it.

The embedding follows the Python source closely:

* Python strings become `String`; `str.split("/")` becomes `pySplit '/'`,
  `"/".join(...)` becomes `joinSlash`, the substring operator `pat in s`
  becomes `strContains s pat`, `str.upper` becomes `pyUpper` (the script
  only uppercases ASCII status codes), and slicing `s[:500]` becomes
  `pyTake 500`.
* Fallible Python code (raising/`try ... except`) is embedded with
  `Option`/`Except`: `list[i]` becomes `List.get?`, `list.index(x)`
  becomes `listIndex x`, and an HTTP call that may raise is a value of
  `Except String _` supplied as an argument.
* The outcome of `requests.Response.json()` is carried in the response
  value itself (`parsed : Option JVal`), since the JSON parser belongs to
  the `requests` library, not to this program.
* Python dicts used as request parameter maps become ordered association
  lists with Python's `dict.update` replace-or-append semantics.
-/

namespace PostReels

/-! ## Character-list string primitives (Python semantics) -/

/-- Python `s.split(sep)` for a one-character separator, on character
lists.  `[] ↦ [[]]`, matching Python's `"".split("/") == [""]`. -/
def splitChar (sep : Char) : List Char → List (List Char)
  | [] => [[]]
  | c :: cs =>
    match splitChar sep cs with
    | [] => [[c]]
    | l :: ls => if c = sep then [] :: l :: ls else (c :: l) :: ls

/-- Python `"/".join(...)` on character lists. -/
def joinC : List (List Char) → List Char
  | [] => []
  | [a] => a
  | a :: b :: rest => a ++ '/' :: joinC (b :: rest)

/-- Boolean prefix test on character lists. -/
def isPrefixL : List Char → List Char → Bool
  | [], _ => true
  | _ :: _, [] => false
  | a :: as, b :: bs => a = b && isPrefixL as bs

/-- Boolean substring-occurrence test on character lists. -/
def containsL (pat : List Char) : List Char → Bool
  | [] => isPrefixL pat []
  | c :: cs => isPrefixL pat (c :: cs) || containsL pat cs

/-! ## String-level wrappers -/

/-- Python `pat in s` (substring containment). -/
def strContains (s pat : String) : Bool :=
  containsL pat.data s.data

/-- Python `s.split(sep)` for a one-character separator. -/
def pySplit (sep : Char) (s : String) : List String :=
  (splitChar sep s.data).map String.mk

/-- Python `"/".join(l)`. -/
def joinSlash (l : List String) : String :=
  String.mk (joinC (l.map String.data))

/-- Python `s[:n]` (truncation never raises). -/
def pyTake (n : Nat) (s : String) : String :=
  String.mk (s.data.take n)

/-- Python `s.upper()`; the script only uppercases ASCII status codes,
for which `Char.toUpper` agrees with Python. -/
def pyUpper (s : String) : String :=
  String.mk (s.data.map Char.toUpper)

/-- Python `x or ""` for an optional string (`None` and `""` are falsy). -/
def pyOrEmpty : Option String → String
  | none => ""
  | some s => s

/-- Python truthiness of an optional string: `None` and `""` are falsy. -/
def pyTruthy : Option String → Bool
  | none => false
  | some s => s != ""

/-- Python `list.index(a)`: index of the first occurrence, `none` when
absent (Python raises `ValueError` there). -/
def listIndex (a : String) : List String → Option Nat
  | [] => none
  | b :: bs => if b = a then some 0 else (listIndex a bs).map (· + 1)

/-! ## `normalize_github_raw` (post_reels.py lines 43–69)

```python
def normalize_github_raw(url: str) -> str:
    if "github.com" in url and "/raw/" in url:
        parts = url.split("/")
        try:
            user = parts[3]
            repo = parts[4]
            idx = parts.index("raw")
            if parts[idx+1:idx+3] == ["refs", "heads"]:
                branch = parts[idx+3]
                path = "/".join(parts[idx+4:])
            else:
                branch = parts[idx+1]
                path = "/".join(parts[idx+2:])
            return f"https://raw.githubusercontent.com/{user}/{repo}/{branch}/{path}"
        except Exception:
            return url
    return url
```

Every indexing step that can raise `IndexError`/`ValueError` is an
`Option` here; any `none` reproduces the `except Exception: return url`
branch. -/

def normalize_github_raw (url : String) : String :=
  if strContains url "github.com" && strContains url "/raw/" then
    let parts := pySplit '/' url
    match parts.get? 3, parts.get? 4, listIndex "raw" parts with
    | some user, some repo, some idx =>
      if (parts.drop (idx + 1)).take 2 = ["refs", "heads"] then
        match parts.get? (idx + 3) with
        | some branch =>
          "https://raw.githubusercontent.com/" ++ user ++ "/" ++ repo ++ "/" ++
            branch ++ "/" ++ joinSlash (parts.drop (idx + 4))
        | none => url
      else
        match parts.get? (idx + 1) with
        | some branch =>
          "https://raw.githubusercontent.com/" ++ user ++ "/" ++ repo ++ "/" ++
            branch ++ "/" ++ joinSlash (parts.drop (idx + 2))
        | none => url
    | _, _, _ => url
  else url

/-! ## Authenticated request parameters (post_reels.py lines 27–41)

Request parameter dicts are ordered association lists.  `dictUpdate`
reproduces Python's `dict.update`: an existing key keeps its position and
gets the new value, a fresh key is appended.  The HMAC-SHA256 hex digest
itself is a `requests`/`hashlib` primitive external to this program, so
the embedding is parametrized by the digest function `hmacSha256Hex`
(keyed by its first argument, hashing the second). -/

/-- Python `d[k] = v` / one step of `d.update(...)`. -/
def updateKV (d : List (String × String)) (kv : String × String) :
    List (String × String) :=
  if d.any (fun p => p.1 = kv.1) then
    d.map (fun p => if p.1 = kv.1 then (p.1, kv.2) else p)
  else d ++ [kv]

/-- Python `d.update(extra)`. -/
def dictUpdate (d extra : List (String × String)) : List (String × String) :=
  extra.foldl updateKV d

/-- `appsecret_proof()` (lines 27–32): `none` when `APP_SECRET` is unset
or empty (Python truthiness of `if not APP_SECRET`). -/
def appsecret_proof (hmacSha256Hex : String → String → String)
    (appSecret : Option String) (accessToken : String) : Option String :=
  match appSecret with
  | none => none
  | some s => if s = "" then none else some (hmacSha256Hex s accessToken)

/-- `params_with_auth(extra)` (lines 34–41). -/
def params_with_auth (hmacSha256Hex : String → String → String)
    (appSecret : Option String) (accessToken : String)
    (extra : List (String × String)) : List (String × String) :=
  let p : List (String × String) := [("access_token", accessToken)]
  let p :=
    match appsecret_proof hmacSha256Hex appSecret accessToken with
    | some proof => if proof = "" then p else p ++ [("appsecret_proof", proof)]
    | none => p
  dictUpdate p extra

/-- Request parameters sent by `create_reel` (lines 99–109). -/
def create_reel_params (hmacSha256Hex : String → String → String)
    (appSecret : Option String) (accessToken video_url caption : String) :
    List (String × String) :=
  params_with_auth hmacSha256Hex appSecret accessToken
    [("media_type", "REELS"), ("caption", caption),
     ("video_url", video_url), ("share_to_feed", "true")]

/-- Request parameters sent by `get_status` (lines 111–118): built inline,
with the access token only — `params_with_auth` is not used there.  The
`creation_id` goes into the request URL, not the parameter dict. -/
def get_status_params (accessToken : String) : List (String × String) :=
  [("fields", "status_code,status"), ("access_token", accessToken)]

/-- Request parameters sent by `publish_reel` (lines 120–124). -/
def publish_reel_params (hmacSha256Hex : String → String → String)
    (appSecret : Option String) (accessToken creation_id : String) :
    List (String × String) :=
  params_with_auth hmacSha256Hex appSecret accessToken
    [("creation_id", creation_id)]

/-- Request parameters sent by `get_permalink` (lines 126–130). -/
def get_permalink_params (hmacSha256Hex : String → String → String)
    (appSecret : Option String) (accessToken : String) :
    List (String × String) :=
  params_with_auth hmacSha256Hex appSecret accessToken
    [("fields", "permalink")]

/-! ## JSON values and response-body handling (lines 111–136) -/

/-- JSON values, restricted to the constructors this client produces and
inspects (objects, strings, numbers). -/
inductive JVal where
  | jstr : String → JVal
  | jnum : Nat → JVal
  | jobj : List (String × JVal) → JVal

/-- An HTTP response as the script sees it: raw status, raw body text, and
the outcome of `requests.Response.json()` (`none` when the body is not
valid JSON, where `resp.json()` raises). -/
structure HttpResponse where
  status_code : Nat
  text : String
  parsed : Option JVal

/-- `safe_json(resp)` (lines 132–136): a parse failure becomes an in-band
error envelope carrying the HTTP status and the body truncated to 500
characters. -/
def safe_json (resp : HttpResponse) : JVal :=
  match resp.parsed with
  | some v => v
  | none =>
    .jobj [("error", .jobj [("message",
              .jstr ("Non-JSON response (" ++ toString resp.status_code ++ "): "
                      ++ pyTake 500 resp.text))]),
           ("http_status", .jnum resp.status_code)]

/-- Python `"error" in data` for a JSON object. -/
def hasKey (k : String) : JVal → Bool
  | .jobj kvs => kvs.any (fun p => p.1 = k)
  | _ => false

/-- Body handling of `create_reel` (line 109): always `safe_json`, never
raises on a non-JSON body. -/
def create_reel_result (resp : HttpResponse) : Except String JVal :=
  .ok (safe_json resp)

/-- Body handling of `publish_reel` (line 124): `safe_json`. -/
def publish_reel_result (resp : HttpResponse) : Except String JVal :=
  .ok (safe_json resp)

/-- Body handling of `get_permalink` (line 130): `safe_json`. -/
def get_permalink_result (resp : HttpResponse) : Except String JVal :=
  .ok (safe_json resp)

/-- Body handling of `get_status` (line 118): `return r.json()` with no
`safe_json` wrapper, so a non-JSON body propagates the library's
`JSONDecodeError` out of the call (modelled as `.error`). -/
def get_status_result (resp : HttpResponse) : Except String JVal :=
  match resp.parsed with
  | some v => .ok v
  | none => .error ("JSONDecodeError: response body is not valid JSON (HTTP "
                      ++ toString resp.status_code ++ ")")

/-! ## `check_video_url_public` (lines 71–97)

The two network effects (HEAD and the fallback streamed GET) enter as
`Except`-valued arguments: `.error e` is a raised `requests` exception
with message `e`.  Headers are collapsed to the only one the script
reads, `Content-Type` (`none` when absent; `headers.get` defaults it to
`""`). -/

/-- The part of an HTTP response that the prober inspects. -/
structure ProbeResponse where
  status_code : Nat
  contentType : Option String

/-- Message of the `requests.HTTPError` raised by `raise_for_status()`;
the exact library text is not load-bearing for any claim, only that the
branch fails. -/
def httpErrorMsg (status : Nat) : String :=
  toString status ++ " Error"

def check_video_url_public (head fallbackGet : Except String ProbeResponse) :
    Bool × String :=
  match head with
  | .error e => (false, "HEAD request failed: " ++ e)
  | .ok r =>
    if 400 ≤ r.status_code then
      (false, "URL returned HTTP " ++ toString r.status_code)
    else
      let ctype := r.contentType.getD ""
      if strContains ctype "video" || strContains ctype "octet-stream" then
        (true, "OK")
      else
        match fallbackGet with
        | .error e => (false, "Could not validate video content-type: " ++ e)
        | .ok g =>
          if 400 ≤ g.status_code then
            (false, "Could not validate video content-type: "
                      ++ httpErrorMsg g.status_code)
          else
            let ctype2 := g.contentType.getD ""
            if strContains ctype2 "video" || strContains ctype2 "octet-stream" then
              (true, "OK")
            else
              (false, "Unexpected Content-Type: "
                        ++ (if ctype2 = "" then "N/A" else ctype2))

/-! ## The job-lifecycle controller, `main` (lines 145–211)

The remote side enters as data: the createJob response, a finite prefix
of the infinite status-poll stream, and the publish response.  A JSON
response dict is abstracted to the fields `main` inspects: whether the
key `"error"` is present, and the `"id"` / `"status_code"` value. -/

/-- A create/publish response as `main` inspects it. -/
structure MediaResp where
  hasErrorKey : Bool
  id : Option String
deriving DecidableEq

/-- A status response as `main` inspects it. -/
structure StatusResp where
  hasErrorKey : Bool
  status_code : Option String
deriving DecidableEq

/-- `backoff = min(max_backoff, int(backoff * 1.5))` (line 193).  For the
integer magnitudes involved, `backoff * 1.5` is exact in binary floating
point and `int(...)` truncates the positive result downward, so the
update is exactly `min 60 (b * 3 / 2)` over `Nat`. -/
def backoffStep (b : Nat) : Nat :=
  min 60 (b * 3 / 2)

/-- Result of the polling loop (lines 177–196). -/
inductive PollOutcome where
  | finished
  | statusError
  | pipelineError
  | timedOut (waited : Nat)
  | exhausted
deriving DecidableEq

/-- The polling loop (lines 177–196), driven by a finite prefix of the
status-response stream.  Returns the outcome together with the list of
`(backoff, waited)` states at each status poll actually issued.
`exhausted` is the modelling artifact of the finite prefix running out;
no claim depends on it. -/
def pollLoop : List StatusResp → Nat → Nat → PollOutcome × List (Nat × Nat)
  | [], _, _ => (.exhausted, [])
  | s :: rest, b, w =>
    if s.hasErrorKey then (.statusError, [(b, w)])
    else if pyUpper (pyOrEmpty s.status_code) = "FINISHED" then
      (.finished, [(b, w)])
    else if pyUpper (pyOrEmpty s.status_code) = "ERROR"
        ∨ pyUpper (pyOrEmpty s.status_code) = "ERROR_UPLOADING" then
      (.pipelineError, [(b, w)])
    else if 900 ≤ w + b then (.timedOut (w + b), [(b, w)])
    else ((pollLoop rest (backoffStep b) (w + b)).1,
          (b, w) :: (pollLoop rest (backoffStep b) (w + b)).2)

/-- Terminal outcome of one run of `main` after the probe. -/
inductive MainOutcome where
  | probeFailed
  | createError
  | noCreationId
  | statusError
  | pipelineError
  | pollTimeout
  | exhausted
  | publishError
  | publishedWithId
  | publishedNoId
deriving DecidableEq

/-- Which remote calls the run issued after job creation. -/
structure RunTrace where
  statusPolls : Nat
  publishCalled : Bool
  permalinkCalled : Bool
deriving DecidableEq

/-- `main` after the polling loop has delivered its outcome (lines
185–211): `FINISHED` breaks out to publish; the id-less publish success
is the warning branch (line 211) that still terminates normally. -/
def afterPoll : PollOutcome → Nat → MediaResp → MainOutcome × RunTrace
  | .statusError, polls, _ => (.statusError, ⟨polls, false, false⟩)
  | .pipelineError, polls, _ => (.pipelineError, ⟨polls, false, false⟩)
  | .timedOut _, polls, _ => (.pollTimeout, ⟨polls, false, false⟩)
  | .exhausted, polls, _ => (.exhausted, ⟨polls, false, false⟩)
  | .finished, polls, pub =>
    if pub.hasErrorKey then (.publishError, ⟨polls, true, false⟩)
    else if pyTruthy pub.id then (.publishedWithId, ⟨polls, true, true⟩)
    else (.publishedNoId, ⟨polls, true, false⟩)

/-- `main` from the probe check onward (lines 154–211): probe → create →
poll (`backoff = 5`, `waited = 0`, ceiling `15 * 60`) → publish →
best-effort permalink.  The permalink response never influences control
flow (it is only printed), so it does not appear as an input. -/
def mainRun (probe : Bool × String) (create : MediaResp)
    (statuses : List StatusResp) (pub : MediaResp) : MainOutcome × RunTrace :=
  if !probe.1 then (.probeFailed, ⟨0, false, false⟩)
  else if create.hasErrorKey then (.createError, ⟨0, false, false⟩)
  else if !pyTruthy create.id then (.noCreationId, ⟨0, false, false⟩)
  else afterPoll (pollLoop statuses 5 0).1 (pollLoop statuses 5 0).2.length pub

/-- Process exit code of each outcome: `sys.exit(1)` on every failure
path, normal termination (0) on both publish-success paths.  The
modelling artifact `exhausted` is mapped to 1; no claim touches it. -/
def exitCode : MainOutcome → Nat
  | .publishedWithId => 0
  | .publishedNoId => 0
  | _ => 1

/-- A concrete stand-in digest function, used only to instantiate
counterexamples and witnesses at concrete inputs; the claims under test
concern which parameter maps carry the digest, not its value. -/
def demoHmac (key msg : String) : String :=
  "hmac-sha256(" ++ key ++ "," ++ msg ++ ")"

/-! ## Helper lemmas -/

/-- The backoff component of the `i`-th recorded poll state is the
`i`-fold iteration of the backoff update from the initial interval. -/
lemma pollLoop_trace_backoff (statuses : List StatusResp) :
    ∀ b w i p, (pollLoop statuses b w).2.get? i = some p →
      p.1 = backoffStep^[i] b := by
  induction statuses with
  | nil => intro b w i p h; simp [pollLoop] at h
  | cons s rest ih =>
    intro b w i p h
    simp only [pollLoop] at h
    split_ifs at h
    case _ | _ | _ | _ =>
      rcases i with _ | i
      · simp only [List.get?_cons_zero, Option.some.injEq] at h
        simp [← h]
      · simp at h
    case _ =>
      rcases i with _ | i
      · simp only [List.get?_cons_zero, Option.some.injEq] at h
        simp [← h]
      · simp only [List.get?_cons_succ] at h
        rw [Function.iterate_succ_apply]
        exact ih (backoffStep b) (w + b) i p h

/-- `splitChar` never returns the empty list. -/
lemma splitChar_ne_nil (sep : Char) (l : List Char) : splitChar sep l ≠ [] := by
  cases l with
  | nil => simp [splitChar]
  | cons c cs =>
    simp only [splitChar]
    rcases h : splitChar sep cs with _ | ⟨a, as⟩
    · simp
    · split_ifs <;> simp

/-- A separator-free list splits into itself. -/
lemma splitChar_no_sep (sep : Char) (a : List Char) (h : sep ∉ a) :
    splitChar sep a = [a] := by
  induction a with
  | nil => rfl
  | cons c cs ih =>
    have hc : c ≠ sep := fun hh => h (hh ▸ List.mem_cons_self c cs)
    have hcs : sep ∉ cs := fun hh => h (List.mem_cons_of_mem c hh)
    simp only [splitChar, ih hcs]
    rw [if_neg hc]

/-- Peeling one separator-free chunk off the front of a split. -/
lemma splitChar_append_sep (sep : Char) (a rest : List Char) (h : sep ∉ a) :
    splitChar sep (a ++ sep :: rest) = a :: splitChar sep rest := by
  induction a with
  | nil =>
    simp only [List.nil_append, splitChar]
    rcases hs : splitChar sep rest with _ | ⟨l, ls⟩
    · exact absurd hs (splitChar_ne_nil sep rest)
    · simp
  | cons c cs ih =>
    have hc : c ≠ sep := fun hh => h (hh ▸ List.mem_cons_self c cs)
    have hcs : sep ∉ cs := fun hh => h (List.mem_cons_of_mem c hh)
    simp only [List.cons_append, splitChar, List.append_eq]
    rw [ih hcs]
    simp [hc]

/-- Splitting a slash-join of slash-free chunks recovers the chunks. -/
lemma splitChar_joinC (chunks : List (List Char)) (hne : chunks ≠ [])
    (h : ∀ c ∈ chunks, '/' ∉ c) :
    splitChar '/' (joinC chunks) = chunks := by
  induction chunks with
  | nil => exact absurd rfl hne
  | cons a tail ih =>
    cases tail with
    | nil =>
      simp only [joinC]
      exact splitChar_no_sep '/' a (h a (List.mem_cons_self a []))
    | cons bb rest =>
      rw [joinC, splitChar_append_sep '/' a _ (h a (List.mem_cons_self a _)),
        ih (by simp) (fun c hc => h c (List.mem_cons_of_mem a hc))]

/-- A prefix of `a` is a prefix of `a ++ b`. -/
lemma isPrefixL_append (p a b : List Char) (h : isPrefixL p a = true) :
    isPrefixL p (a ++ b) = true := by
  induction p generalizing a with
  | nil => rfl
  | cons x ps ih =>
    cases a with
    | nil => simp [isPrefixL] at h
    | cons y as =>
      simp only [isPrefixL, Bool.and_eq_true, decide_eq_true_eq] at h
      simp only [List.cons_append, isPrefixL, Bool.and_eq_true, decide_eq_true_eq]
      exact ⟨h.1, ih as h.2⟩

/-- The empty pattern occurs in every list. -/
lemma containsL_nil (l : List Char) : containsL [] l = true := by
  cases l <;> simp [containsL, isPrefixL]

/-- An occurrence in `a` is an occurrence in `a ++ b`. -/
lemma containsL_append_left (p a b : List Char) (h : containsL p a = true) :
    containsL p (a ++ b) = true := by
  induction a with
  | nil =>
    cases p with
    | nil => exact containsL_nil b
    | cons x ps => simp [containsL, isPrefixL] at h
  | cons c as ih =>
    simp only [containsL, Bool.or_eq_true] at h
    simp only [List.cons_append, containsL, Bool.or_eq_true]
    rcases h with h | h
    · exact Or.inl (isPrefixL_append p (c :: as) b h)
    · exact Or.inr (ih h)

/-- An occurrence in `b` is an occurrence in `a ++ b`. -/
lemma containsL_append_right (p a b : List Char) (h : containsL p b = true) :
    containsL p (a ++ b) = true := by
  induction a with
  | nil => exact h
  | cons c as ih =>
    simp only [List.cons_append, containsL, Bool.or_eq_true]
    exact Or.inr ih

/-- `String.mk` inverts `String.data`. -/
lemma mk_data (s : String) : String.mk s.data = s := rfl

/-- `String.mk []` is the empty string. -/
lemma mk_nil : String.mk ([] : List Char) = "" := rfl

/-- Mapping `String.data` and back is the identity. -/
lemma map_mk_map_data (l : List String) :
    (l.map String.data).map String.mk = l := by
  induction l with
  | nil => rfl
  | cons s t ih => simp [ih, mk_data]

/-- Whatever the publish response holds, reaching `FINISHED` issues the
publish call. -/
lemma afterPoll_finished_publishCalled (polls : Nat) (pub : MediaResp) :
    (afterPoll .finished polls pub).2.publishCalled = true := by
  simp only [afterPoll]
  split_ifs <;> rfl

/-- The recorded poll-state trace is empty or starts at the entry state. -/
lemma pollLoop_trace_head (statuses : List StatusResp) (b w : Nat) :
    (pollLoop statuses b w).2 = [] ∨
      (pollLoop statuses b w).2.head? = some (b, w) := by
  cases statuses with
  | nil => left; simp [pollLoop]
  | cons s rest =>
    right
    simp only [pollLoop]
    split_ifs <;> rfl

/-- Invariant of the polling loop from any entry state with
`5 ≤ b ≤ 60` and `w < 900`: every issued poll sees `5 ≤ backoff ≤ 60`
and `waited < 900`, the backoff never decreases, and a timeout exit
carries a final waited time in `[900, 959]`. -/
lemma pollLoop_invariant (statuses : List StatusResp) :
    ∀ b w, 5 ≤ b → b ≤ 60 → w < 900 →
      (∀ p ∈ (pollLoop statuses b w).2, 5 ≤ p.1 ∧ p.1 ≤ 60 ∧ p.2 < 900)
      ∧ List.Chain' (fun p q : Nat × Nat => p.1 ≤ q.1) (pollLoop statuses b w).2
      ∧ (∀ wf, (pollLoop statuses b w).1 = .timedOut wf →
          900 ≤ wf ∧ wf ≤ 959) := by
  induction statuses with
  | nil =>
    intro b w _ _ _
    refine ⟨?_, ?_, ?_⟩ <;> simp [pollLoop]
  | cons s rest ih =>
    intro b w hb5 hb60 hw
    have hble : b ≤ backoffStep b := Nat.le_min.mpr ⟨hb60, by omega⟩
    have hstep5 : 5 ≤ backoffStep b := le_trans hb5 hble
    have hstep60 : backoffStep b ≤ 60 := Nat.min_le_left _ _
    simp only [pollLoop]
    split_ifs with h1 h2 h3 h4
    case _ | _ | _ =>
      refine ⟨?_, by simp, ?_⟩
      · intro p hp
        simp only [List.mem_singleton] at hp
        subst hp
        exact ⟨hb5, hb60, hw⟩
      · intro wf hwf
        simp at hwf
    case _ =>
      refine ⟨?_, by simp, ?_⟩
      · intro p hp
        simp only [List.mem_singleton] at hp
        subst hp
        exact ⟨hb5, hb60, hw⟩
      · intro wf hwf
        simp only [PollOutcome.timedOut.injEq] at hwf
        omega
    case _ =>
      obtain ⟨ihA, ihB, ihC⟩ := ih (backoffStep b) (w + b) hstep5 hstep60 (by omega)
      refine ⟨?_, ?_, fun wf hwf => ihC wf hwf⟩
      · intro p hp
        rcases List.mem_cons.mp hp with rfl | hp
        · exact ⟨hb5, hb60, hw⟩
        · exact ihA p hp
      · refine List.chain'_cons'.mpr ⟨?_, ihB⟩
        intro q hq
        rcases pollLoop_trace_head rest (backoffStep b) (w + b) with hnil | hhd
        · rw [hnil] at hq; simp at hq
        · rw [hhd] at hq
          simp only [Option.mem_def, Option.some.injEq] at hq
          subst hq
          exact hble

/-! ## Claim theorems -/

/-- **C1.** A URL matching the unreliable pattern (contains
`"github.com"` and `"/raw/"`) whose slash-split has fewer than 5 parts is
returned unchanged: the out-of-range `parts[4]` access is caught by the
`except` clause, which returns the original URL. -/
theorem claim_C1_malformed_soft_fail (url : String)
    (h1 : strContains url "github.com" = true)
    (h2 : strContains url "/raw/" = true)
    (hlen : (pySplit '/' url).length < 5) :
    normalize_github_raw url = url := by
  have h4 : (pySplit '/' url).get? 4 = none :=
    List.get?_eq_none.mpr (by omega)
  rcases h3 : (pySplit '/' url).get? 3 with _ | u <;>
    rcases hidx : listIndex "raw" (pySplit '/' url) with _ | i <;>
      simp only [List.get?_eq_getElem?] at h3 h4 <;>
        simp [normalize_github_raw, h1, h2, h3, h4, hidx]

/-- Witness for C1 at the concrete malformed URL `github.com/raw/x`
(3 slash-split parts). -/
theorem claim_C1_malformed_soft_fail_witness :
    strContains "github.com/raw/x" "github.com" = true
    ∧ strContains "github.com/raw/x" "/raw/" = true
    ∧ (pySplit '/' "github.com/raw/x").length < 5
    ∧ normalize_github_raw "github.com/raw/x" = "github.com/raw/x" :=
  ⟨by decide, by decide, by decide,
    claim_C1_malformed_soft_fail _ (by decide) (by decide) (by decide)⟩

/-- **C4.** The sleep-interval sequence of the polling loop: iterating
`backoff := min(60, int(backoff * 1.5))` from 5 yields exactly
5, 7, 10, 15, 22, 33, 49, 60 and stays at 60 from the 8th value on; and
the backoff recorded at the `i`-th status poll of the loop is exactly the
`i`-th element of this sequence. -/
theorem claim_C4_backoff_sequence :
    ((List.range 8).map (fun n => backoffStep^[n] 5) = [5, 7, 10, 15, 22, 33, 49, 60])
    ∧ (∀ n, 7 ≤ n → backoffStep^[n] 5 = 60)
    ∧ (∀ statuses i p, (pollLoop statuses 5 0).2.get? i = some p →
        p.1 = backoffStep^[i] 5) := by
  refine ⟨by decide, ?_, fun statuses i p h => pollLoop_trace_backoff statuses 5 0 i p h⟩
  intro n hn
  induction n with
  | zero => omega
  | succ m ih =>
    rcases Nat.lt_or_ge m 7 with hm | hm
    · have hm6 : m = 6 := by omega
      subst hm6; decide
    · rw [Function.iterate_succ_apply', ih hm]; decide

/-- Witness for C4: the cap case at `n = 9`, and the recorded backoff of
the second poll (index 1) of a run that keeps processing. -/
theorem claim_C4_backoff_sequence_witness :
    (7 ≤ 9 ∧ backoffStep^[9] 5 = 60)
    ∧ ((pollLoop [⟨false, some "IN_PROGRESS"⟩, ⟨false, some "IN_PROGRESS"⟩] 5 0).2.get? 1
          = some (7, 5)
        ∧ (7, 5).1 = backoffStep^[1] 5) :=
  ⟨⟨by decide, claim_C4_backoff_sequence.2.1 9 (by decide)⟩,
    ⟨by decide,
      claim_C4_backoff_sequence.2.2
        [⟨false, some "IN_PROGRESS"⟩, ⟨false, some "IN_PROGRESS"⟩] 1 (7, 5) (by decide)⟩⟩

/-- **C7.** The prober: (a) a HEAD response below 400 whose Content-Type
indicates video or binary yields `(true, "OK")`, and the result does not
depend on the fallback GET (it is never consulted); (b) when neither the
HEAD's nor the successful fallback GET's Content-Type indicates
video/binary, the result is `(false, reason)` with the reason naming the
observed content type, or `"N/A"` when it is absent/empty. -/
theorem claim_C7_prober_content_type :
    (∀ (r : ProbeResponse) (g g' : Except String ProbeResponse),
        r.status_code < 400 →
        (strContains (r.contentType.getD "") "video" = true
          ∨ strContains (r.contentType.getD "") "octet-stream" = true) →
        check_video_url_public (.ok r) g = (true, "OK")
          ∧ check_video_url_public (.ok r) g = check_video_url_public (.ok r) g')
    ∧ (∀ (r gr : ProbeResponse),
        r.status_code < 400 →
        strContains (r.contentType.getD "") "video" = false →
        strContains (r.contentType.getD "") "octet-stream" = false →
        gr.status_code < 400 →
        strContains (gr.contentType.getD "") "video" = false →
        strContains (gr.contentType.getD "") "octet-stream" = false →
        check_video_url_public (.ok r) (.ok gr)
          = (false, "Unexpected Content-Type: "
                      ++ (if gr.contentType.getD "" = "" then "N/A"
                          else gr.contentType.getD ""))) := by
  constructor
  · intro r g g' hs hv
    have hns : ¬ 400 ≤ r.status_code := by omega
    have hcc : (strContains (r.contentType.getD "") "video"
        || strContains (r.contentType.getD "") "octet-stream") = true := by
      rcases hv with hv | hv <;> simp [hv]
    constructor <;> simp [check_video_url_public, hns, hcc]
  · intro r gr hs hv1 hv2 hgs hw1 hw2
    have hns : ¬ 400 ≤ r.status_code := by omega
    have hngs : ¬ 400 ≤ gr.status_code := by omega
    simp [check_video_url_public, hns, hngs, hv1, hv2, hw1, hw2]

/-- Witness for C7: a `video/mp4` HEAD succeeds without the GET; a
`text/html` HEAD with a `text/html` fallback GET fails naming
`text/html`. -/
theorem claim_C7_prober_content_type_witness :
    check_video_url_public (.ok ⟨200, some "video/mp4"⟩) (.error "unused") = (true, "OK")
    ∧ check_video_url_public (.ok ⟨200, some "text/html"⟩) (.ok ⟨200, some "text/html"⟩)
        = (false, "Unexpected Content-Type: "
                    ++ (if (some "text/html").getD "" = "" then "N/A"
                        else (some "text/html").getD "")) :=
  ⟨(claim_C7_prober_content_type.1 ⟨200, some "video/mp4"⟩ (.error "unused")
      (.error "unused") (by decide) (Or.inl (by decide))).1,
    claim_C7_prober_content_type.2 ⟨200, some "text/html"⟩ ⟨200, some "text/html"⟩
      (by decide) (by decide) (by decide) (by decide) (by decide) (by decide)⟩

/-- **C9.** A publish response with no error envelope and no (truthy)
`id` is a soft success: the run ends in the warning branch
`publishedNoId`, does not call `get_permalink`, and exits 0. -/
theorem claim_C9_publish_soft_success
    (probe : Bool × String) (create : MediaResp) (statuses : List StatusResp)
    (pub : MediaResp)
    (hp : probe.1 = true) (hc : create.hasErrorKey = false)
    (hid : pyTruthy create.id = true)
    (hf : (pollLoop statuses 5 0).1 = PollOutcome.finished)
    (hpe : pub.hasErrorKey = false) (hpid : pyTruthy pub.id = false) :
    (mainRun probe create statuses pub).1 = MainOutcome.publishedNoId
    ∧ exitCode (mainRun probe create statuses pub).1 = 0
    ∧ (mainRun probe create statuses pub).2.permalinkCalled = false
    ∧ (mainRun probe create statuses pub).2.publishCalled = true := by
  refine ⟨?_, ?_, ?_, ?_⟩ <;>
    simp [mainRun, hp, hc, hid, hf, afterPoll, hpe, hpid, exitCode]

/-- Mapping the `refs/heads` sub-form (owner and repo not themselves
`"raw"`, all components slash-free, at least one path segment). -/
lemma normalize_form_refs_heads (o r b : String) (segs : List String)
    (ho : o ≠ "raw") (hr : r ≠ "raw")
    (hco : '/' ∉ o.data) (hcr : '/' ∉ r.data) (hcb : '/' ∉ b.data)
    (hsegs : ∀ s ∈ segs, '/' ∉ s.data) (hne : segs ≠ []) :
    normalize_github_raw
        ("https://github.com/" ++ o ++ "/" ++ r ++ "/raw/refs/heads/" ++ b ++ "/"
          ++ joinSlash segs)
      = "https://raw.githubusercontent.com/" ++ o ++ "/" ++ r ++ "/" ++ b ++ "/"
          ++ joinSlash segs := by
  have hshape :
      ("https://github.com/" ++ o ++ "/" ++ r ++ "/raw/refs/heads/" ++ b ++ "/"
        ++ joinSlash segs).data
        = "https://github.com/".data ++ (o.data ++ ("/".data ++ (r.data
            ++ ("/raw/refs/heads/".data ++ (b.data ++ ("/".data
            ++ (joinSlash segs).data)))))) := by
    simp only [String.data_append, List.append_assoc]
  have hd :
      ("https://github.com/" ++ o ++ "/" ++ r ++ "/raw/refs/heads/" ++ b ++ "/"
        ++ joinSlash segs).data
        = "https:".data ++ '/' :: ([] ++ '/' :: ("github.com".data ++ '/' ::
            (o.data ++ '/' :: (r.data ++ '/' :: ("raw".data ++ '/' ::
            ("refs".data ++ '/' :: ("heads".data ++ '/' :: (b.data ++ '/' ::
            (joinSlash segs).data)))))))) := hshape.trans rfl
  have hsplitJ : splitChar '/' ((joinSlash segs).data) = segs.map String.data := by
    exact splitChar_joinC (segs.map String.data)
      (fun hcontra => hne (List.map_eq_nil_iff.mp hcontra))
      (fun c hc => by
        obtain ⟨s, hs, rfl⟩ := List.mem_map.mp hc
        exact hsegs s hs)
  have hsplit : pySplit '/' ("https://github.com/" ++ o ++ "/" ++ r
        ++ "/raw/refs/heads/" ++ b ++ "/" ++ joinSlash segs)
      = "https:" :: "" :: "github.com" :: o :: r :: "raw" :: "refs" :: "heads"
          :: b :: segs := by
    simp only [pySplit]
    rw [hd]
    rw [splitChar_append_sep '/' "https:".data _ (by decide)]
    rw [splitChar_append_sep '/' [] _ (by decide)]
    rw [splitChar_append_sep '/' "github.com".data _ (by decide)]
    rw [splitChar_append_sep '/' o.data _ hco]
    rw [splitChar_append_sep '/' r.data _ hcr]
    rw [splitChar_append_sep '/' "raw".data _ (by decide)]
    rw [splitChar_append_sep '/' "refs".data _ (by decide)]
    rw [splitChar_append_sep '/' "heads".data _ (by decide)]
    rw [splitChar_append_sep '/' b.data _ hcb]
    rw [hsplitJ]
    simp only [List.map_cons, mk_data, mk_nil]
    rw [map_mk_map_data]
  have hc1 : strContains ("https://github.com/" ++ o ++ "/" ++ r
      ++ "/raw/refs/heads/" ++ b ++ "/" ++ joinSlash segs) "github.com" = true := by
    simp only [strContains]
    rw [hshape]
    exact containsL_append_left _ _ _ (by decide)
  have hc2 : strContains ("https://github.com/" ++ o ++ "/" ++ r
      ++ "/raw/refs/heads/" ++ b ++ "/" ++ joinSlash segs) "/raw/" = true := by
    simp only [strContains]
    rw [hshape]
    apply containsL_append_right
    apply containsL_append_right
    apply containsL_append_right
    apply containsL_append_right
    exact containsL_append_left _ _ _ (by decide)
  simp only [normalize_github_raw]
  rw [hc1, hc2, hsplit]
  simp [List.get?, listIndex, ho, hr]

/-- Mapping the plain-branch sub-form (owner and repo not themselves
`"raw"`, all components slash-free, at least one path segment, and not
the ambiguous `branch = "refs"` followed by a `"heads"` segment, which
the code necessarily reads as the other sub-form). -/
lemma normalize_form_plain (o r b : String) (segs : List String)
    (ho : o ≠ "raw") (hr : r ≠ "raw")
    (hco : '/' ∉ o.data) (hcr : '/' ∉ r.data) (hcb : '/' ∉ b.data)
    (hsegs : ∀ s ∈ segs, '/' ∉ s.data) (hne : segs ≠ [])
    (hambig : ¬(b = "refs" ∧ segs.head? = some "heads")) :
    normalize_github_raw
        ("https://github.com/" ++ o ++ "/" ++ r ++ "/raw/" ++ b ++ "/"
          ++ joinSlash segs)
      = "https://raw.githubusercontent.com/" ++ o ++ "/" ++ r ++ "/" ++ b ++ "/"
          ++ joinSlash segs := by
  obtain ⟨s₀, srest, rfl⟩ : ∃ s₀ srest, segs = s₀ :: srest := by
    cases segs with
    | nil => exact absurd rfl hne
    | cons s₀ srest => exact ⟨s₀, srest, rfl⟩
  have hnotrh : ¬(b = "refs" ∧ s₀ = "heads") := by
    rintro ⟨h1, h2⟩
    exact hambig ⟨h1, by simp [h2]⟩
  have hshape :
      ("https://github.com/" ++ o ++ "/" ++ r ++ "/raw/" ++ b ++ "/"
        ++ joinSlash (s₀ :: srest)).data
        = "https://github.com/".data ++ (o.data ++ ("/".data ++ (r.data
            ++ ("/raw/".data ++ (b.data ++ ("/".data
            ++ (joinSlash (s₀ :: srest)).data)))))) := by
    simp only [String.data_append, List.append_assoc]
  have hd :
      ("https://github.com/" ++ o ++ "/" ++ r ++ "/raw/" ++ b ++ "/"
        ++ joinSlash (s₀ :: srest)).data
        = "https:".data ++ '/' :: ([] ++ '/' :: ("github.com".data ++ '/' ::
            (o.data ++ '/' :: (r.data ++ '/' :: ("raw".data ++ '/' ::
            (b.data ++ '/' ::
            (joinSlash (s₀ :: srest)).data)))))) := hshape.trans rfl
  have hsplitJ : splitChar '/' ((joinSlash (s₀ :: srest)).data)
      = (s₀ :: srest).map String.data := by
    exact splitChar_joinC ((s₀ :: srest).map String.data)
      (by simp)
      (fun c hc => by
        obtain ⟨s, hs, rfl⟩ := List.mem_map.mp hc
        exact hsegs s hs)
  have hsplit : pySplit '/' ("https://github.com/" ++ o ++ "/" ++ r
        ++ "/raw/" ++ b ++ "/" ++ joinSlash (s₀ :: srest))
      = "https:" :: "" :: "github.com" :: o :: r :: "raw" :: b :: s₀ :: srest := by
    simp only [pySplit]
    rw [hd]
    rw [splitChar_append_sep '/' "https:".data _ (by decide)]
    rw [splitChar_append_sep '/' [] _ (by decide)]
    rw [splitChar_append_sep '/' "github.com".data _ (by decide)]
    rw [splitChar_append_sep '/' o.data _ hco]
    rw [splitChar_append_sep '/' r.data _ hcr]
    rw [splitChar_append_sep '/' "raw".data _ (by decide)]
    rw [splitChar_append_sep '/' b.data _ hcb]
    rw [hsplitJ]
    simp only [List.map_cons, mk_data, mk_nil]
    rw [map_mk_map_data]
  have hc1 : strContains ("https://github.com/" ++ o ++ "/" ++ r
      ++ "/raw/" ++ b ++ "/" ++ joinSlash (s₀ :: srest)) "github.com" = true := by
    simp only [strContains]
    rw [hshape]
    exact containsL_append_left _ _ _ (by decide)
  have hc2 : strContains ("https://github.com/" ++ o ++ "/" ++ r
      ++ "/raw/" ++ b ++ "/" ++ joinSlash (s₀ :: srest)) "/raw/" = true := by
    simp only [strContains]
    rw [hshape]
    apply containsL_append_right
    apply containsL_append_right
    apply containsL_append_right
    apply containsL_append_right
    exact containsL_append_left _ _ _ (by decide)
  simp only [normalize_github_raw]
  rw [hc1, hc2, hsplit]
  simp [List.get?, listIndex, ho, hr, hnotrh]

/-- With a non-empty secret and a non-empty digest, `params_with_auth`
over a concrete-keyed `extra` dict appends everything in order. -/
lemma create_reel_params_eq (hmacSha256Hex : String → String → String)
    (sec tok vurl cap : String) (hsec : sec ≠ "")
    (hdig : hmacSha256Hex sec tok ≠ "") :
    create_reel_params hmacSha256Hex (some sec) tok vurl cap
      = [("access_token", tok), ("appsecret_proof", hmacSha256Hex sec tok),
         ("media_type", "REELS"), ("caption", cap), ("video_url", vurl),
         ("share_to_feed", "true")] := by
  simp [create_reel_params, params_with_auth, appsecret_proof, dictUpdate,
    updateKV, hsec, hdig]

/-- `publish_reel`'s parameter dict under a configured secret. -/
lemma publish_reel_params_eq (hmacSha256Hex : String → String → String)
    (sec tok cid : String) (hsec : sec ≠ "")
    (hdig : hmacSha256Hex sec tok ≠ "") :
    publish_reel_params hmacSha256Hex (some sec) tok cid
      = [("access_token", tok), ("appsecret_proof", hmacSha256Hex sec tok),
         ("creation_id", cid)] := by
  simp [publish_reel_params, params_with_auth, appsecret_proof, dictUpdate,
    updateKV, hsec, hdig]

/-- `get_permalink`'s parameter dict under a configured secret. -/
lemma get_permalink_params_eq (hmacSha256Hex : String → String → String)
    (sec tok : String) (hsec : sec ≠ "")
    (hdig : hmacSha256Hex sec tok ≠ "") :
    get_permalink_params hmacSha256Hex (some sec) tok
      = [("access_token", tok), ("appsecret_proof", hmacSha256Hex sec tok),
         ("fields", "permalink")] := by
  simp [get_permalink_params, params_with_auth, appsecret_proof, dictUpdate,
    updateKV, hsec, hdig]

/-- **C2 (amended).** With a configured shared secret (and its HMAC
digest non-empty, as a 64-hex-digit digest always is), the signed proof
is attached alongside the access token to the create, publish and
permalink-resolution requests — but the status request sends only
`fields` and the access token, with no `appsecret_proof`. -/
theorem claim_C2_appsecret_proof
    (hmacSha256Hex : String → String → String) (sec tok vurl cap cid : String)
    (hsec : sec ≠ "") (hdig : hmacSha256Hex sec tok ≠ "") :
    (("access_token", tok) ∈ create_reel_params hmacSha256Hex (some sec) tok vurl cap
      ∧ ("appsecret_proof", hmacSha256Hex sec tok)
          ∈ create_reel_params hmacSha256Hex (some sec) tok vurl cap)
    ∧ (("access_token", tok) ∈ publish_reel_params hmacSha256Hex (some sec) tok cid
      ∧ ("appsecret_proof", hmacSha256Hex sec tok)
          ∈ publish_reel_params hmacSha256Hex (some sec) tok cid)
    ∧ (("access_token", tok) ∈ get_permalink_params hmacSha256Hex (some sec) tok
      ∧ ("appsecret_proof", hmacSha256Hex sec tok)
          ∈ get_permalink_params hmacSha256Hex (some sec) tok)
    ∧ get_status_params tok
        = [("fields", "status_code,status"), ("access_token", tok)] := by
  rw [create_reel_params_eq hmacSha256Hex sec tok vurl cap hsec hdig,
    publish_reel_params_eq hmacSha256Hex sec tok cid hsec hdig,
    get_permalink_params_eq hmacSha256Hex sec tok hsec hdig]
  refine ⟨⟨?_, ?_⟩, ⟨?_, ?_⟩, ⟨?_, ?_⟩, rfl⟩ <;> simp

/-- Counterexample to C2 as stated: at a concrete configured secret, the
status request's parameter map carries no `appsecret_proof` entry at
all. -/
theorem claim_C2_counterexample :
    ("appsecret_proof", demoHmac "s3cr3t" "tok3n") ∉ get_status_params "tok3n"
    ∧ (get_status_params "tok3n").all
        (fun p => p.1 != "appsecret_proof") = true := by
  constructor <;> decide

/-- Witness for the amended C2 at a concrete configuration. -/
theorem claim_C2_appsecret_proof_witness :
    ("s3cr3t" : String) ≠ "" ∧ demoHmac "s3cr3t" "tok3n" ≠ ""
    ∧ ((("access_token", "tok3n")
          ∈ create_reel_params demoHmac (some "s3cr3t") "tok3n" "https://v" "hi"
        ∧ ("appsecret_proof", demoHmac "s3cr3t" "tok3n")
            ∈ create_reel_params demoHmac (some "s3cr3t") "tok3n" "https://v" "hi")
      ∧ (("access_token", "tok3n")
            ∈ publish_reel_params demoHmac (some "s3cr3t") "tok3n" "42"
        ∧ ("appsecret_proof", demoHmac "s3cr3t" "tok3n")
            ∈ publish_reel_params demoHmac (some "s3cr3t") "tok3n" "42")
      ∧ (("access_token", "tok3n")
            ∈ get_permalink_params demoHmac (some "s3cr3t") "tok3n"
        ∧ ("appsecret_proof", demoHmac "s3cr3t" "tok3n")
            ∈ get_permalink_params demoHmac (some "s3cr3t") "tok3n")
      ∧ get_status_params "tok3n"
          = [("fields", "status_code,status"), ("access_token", "tok3n")]) :=
  ⟨by decide, by decide,
    claim_C2_appsecret_proof demoHmac "s3cr3t" "tok3n" "https://v" "hi" "42"
      (by decide) (by decide)⟩

/-- **C3 (amended).** A response body that fails to parse as JSON is
surfaced in-band through `safe_json` — an `error`-keyed envelope with the
raw HTTP status and the body truncated to 500 characters — by the create,
publish and permalink operations; the status operation instead lets the
JSON-decode exception propagate. -/
theorem claim_C3_nonjson_envelope (resp : HttpResponse)
    (h : resp.parsed = none) :
    safe_json resp
      = JVal.jobj [("error", JVal.jobj [("message",
            JVal.jstr ("Non-JSON response (" ++ toString resp.status_code ++ "): "
                        ++ pyTake 500 resp.text))]),
          ("http_status", JVal.jnum resp.status_code)]
    ∧ hasKey "error" (safe_json resp) = true
    ∧ create_reel_result resp = .ok (safe_json resp)
    ∧ publish_reel_result resp = .ok (safe_json resp)
    ∧ get_permalink_result resp = .ok (safe_json resp)
    ∧ get_status_result resp
        = .error ("JSONDecodeError: response body is not valid JSON (HTTP "
            ++ toString resp.status_code ++ ")") := by
  refine ⟨?_, ?_, rfl, rfl, rfl, ?_⟩
  · simp [safe_json, h]
  · simp [safe_json, hasKey, h]
  · simp [get_status_result, h]

/-- Counterexample to C3 as stated: on a concrete non-JSON 502 response,
the status operation raises (returns `.error`) instead of surfacing an
in-band envelope. -/
theorem claim_C3_counterexample :
    get_status_result ⟨502, "<html>Bad Gateway</html>", none⟩
      = Except.error "JSONDecodeError: response body is not valid JSON (HTTP 502)" :=
  rfl

/-- Witness for the amended C3 at a concrete non-JSON 500 response. -/
theorem claim_C3_nonjson_envelope_witness :
    safe_json ⟨500, "oops not json", none⟩
      = JVal.jobj [("error", JVal.jobj [("message",
            JVal.jstr ("Non-JSON response (" ++ toString (500 : Nat) ++ "): "
                        ++ pyTake 500 "oops not json"))]),
          ("http_status", JVal.jnum 500)]
    ∧ hasKey "error" (safe_json ⟨500, "oops not json", none⟩) = true
    ∧ create_reel_result ⟨500, "oops not json", none⟩
        = .ok (safe_json ⟨500, "oops not json", none⟩)
    ∧ publish_reel_result ⟨500, "oops not json", none⟩
        = .ok (safe_json ⟨500, "oops not json", none⟩)
    ∧ get_permalink_result ⟨500, "oops not json", none⟩
        = .ok (safe_json ⟨500, "oops not json", none⟩)
    ∧ get_status_result ⟨500, "oops not json", none⟩
        = .error ("JSONDecodeError: response body is not valid JSON (HTTP "
            ++ toString (500 : Nat) ++ ")") :=
  claim_C3_nonjson_envelope ⟨500, "oops not json", none⟩ rfl

/-- A URL that does not match the unreliable pattern is returned
unchanged. -/
lemma normalize_not_matching (v : String)
    (h : strContains v "github.com" = false ∨ strContains v "/raw/" = false) :
    normalize_github_raw v = v := by
  have hc : (strContains v "github.com" && strContains v "/raw/") = false := by
    rcases h with h | h <;> simp [h]
  simp [normalize_github_raw, hc]

/-- **C6 (amended).** Normalization is idempotent on every URL whose
normalized form no longer matches the unreliable pattern (does not
contain both `"github.com"` and `"/raw/"`); in particular such an
already-normalized direct raw-content URL is returned unchanged. -/
theorem claim_C6_idempotent_when_output_clean (u : String)
    (h : strContains (normalize_github_raw u) "github.com" = false
        ∨ strContains (normalize_github_raw u) "/raw/" = false) :
    normalize_github_raw (normalize_github_raw u) = normalize_github_raw u :=
  normalize_not_matching _ h

/-- Counterexample to C6 as stated: a path that itself contains a `raw`
segment followed by `github.com` makes the normalized output match the
unreliable pattern again, and a second application rewrites it further. -/
theorem claim_C6_counterexample :
    normalize_github_raw (normalize_github_raw
        "https://github.com/user/repo/raw/main/raw/github.com/f.mp4")
      ≠ normalize_github_raw
          "https://github.com/user/repo/raw/main/raw/github.com/f.mp4" := by
  decide

/-- Witness for the amended C6: a clean normalized output is a fixed
point. -/
theorem claim_C6_idempotent_witness :
    strContains (normalize_github_raw
        "https://github.com/user/repo/raw/main/file.mp4") "github.com" = false
    ∧ normalize_github_raw (normalize_github_raw
          "https://github.com/user/repo/raw/main/file.mp4")
        = normalize_github_raw "https://github.com/user/repo/raw/main/file.mp4" :=
  ⟨by decide,
    claim_C6_idempotent_when_output_clean
      "https://github.com/user/repo/raw/main/file.mp4" (Or.inl (by decide))⟩

/-- **C5 (amended).** Both unreliable sub-forms map to
`https://raw.githubusercontent.com/<owner>/<repo>/<branch>/<path>` with
the remaining segments joined by `/`, provided the components are
ordinary path segments: slash-free, with owner and repo not themselves
equal to `"raw"` (the code locates the *first* `raw` segment).  The
`refs/heads` form holds with no further condition; the plain-branch form
additionally excludes the ambiguous `branch = "refs"` followed by a
first segment `"heads"`, which the code reads as the other sub-form. -/
theorem claim_C5_github_raw_mapping (o r b : String) (segs : List String)
    (ho : o ≠ "raw") (hr : r ≠ "raw")
    (hco : '/' ∉ o.data) (hcr : '/' ∉ r.data) (hcb : '/' ∉ b.data)
    (hsegs : ∀ s ∈ segs, '/' ∉ s.data) (hne : segs ≠ []) :
    normalize_github_raw
        ("https://github.com/" ++ o ++ "/" ++ r ++ "/raw/refs/heads/" ++ b ++ "/"
          ++ joinSlash segs)
      = "https://raw.githubusercontent.com/" ++ o ++ "/" ++ r ++ "/" ++ b ++ "/"
          ++ joinSlash segs
    ∧ (¬(b = "refs" ∧ segs.head? = some "heads") →
        normalize_github_raw
            ("https://github.com/" ++ o ++ "/" ++ r ++ "/raw/" ++ b ++ "/"
              ++ joinSlash segs)
          = "https://raw.githubusercontent.com/" ++ o ++ "/" ++ r ++ "/" ++ b ++ "/"
              ++ joinSlash segs) :=
  ⟨normalize_form_refs_heads o r b segs ho hr hco hcr hcb hsegs hne,
   fun hambig => normalize_form_plain o r b segs ho hr hco hcr hcb hsegs hne hambig⟩

/-- Counterexample to C5 as stated: with owner literally `"raw"`,
`parts.index("raw")` finds the owner segment instead of the `raw` path
marker, and the mapping claimed for
`https://github.com/<owner>/<repo>/raw/<branch>/<path>` fails. -/
theorem claim_C5_counterexample :
    normalize_github_raw "https://github.com/raw/repo/raw/main/f.mp4"
      ≠ "https://raw.githubusercontent.com/raw/repo/main/f.mp4"
    ∧ normalize_github_raw "https://github.com/raw/repo/raw/main/f.mp4"
      = "https://raw.githubusercontent.com/raw/repo/repo/raw/main/f.mp4" := by
  constructor <;> decide

/-- Witness for the amended C5: the two worked examples of the
specification. -/
theorem claim_C5_github_raw_mapping_witness :
    normalize_github_raw "https://github.com/user/repo/raw/refs/heads/main/file.mp4"
      = "https://raw.githubusercontent.com/user/repo/main/file.mp4"
    ∧ normalize_github_raw "https://github.com/user/repo/raw/main/sub/dir/file.mp4"
      = "https://raw.githubusercontent.com/user/repo/main/sub/dir/file.mp4" :=
  ⟨(claim_C5_github_raw_mapping "user" "repo" "main" ["file.mp4"] (by decide)
      (by decide) (by decide) (by decide) (by decide) (by decide) (by decide)).1,
   (claim_C5_github_raw_mapping "user" "repo" "main" ["sub", "dir", "file.mp4"]
      (by decide) (by decide) (by decide) (by decide) (by decide) (by decide)
      (by decide)).2 (by decide)⟩

/-- **C8.** Polling-loop transitions: a `FINISHED` status ends polling
and proceeds to publish; an `ERROR`/`ERROR_UPLOADING` status ends the run
immediately with exit code 1, no further status poll, and no publish
call; any other status code continues polling (under the wait ceiling,
with the backoff updated). -/
theorem claim_C8_status_transitions
    (s : StatusResp) (rest : List StatusResp) (b w : Nat)
    (probe : Bool × String) (create : MediaResp) (pub : MediaResp)
    (hne : s.hasErrorKey = false)
    (hp : probe.1 = true) (hc : create.hasErrorKey = false)
    (hid : pyTruthy create.id = true) :
    (pyUpper (pyOrEmpty s.status_code) = "FINISHED" →
        pollLoop (s :: rest) b w = (.finished, [(b, w)])
        ∧ (mainRun probe create (s :: rest) pub).2.publishCalled = true)
    ∧ (pyUpper (pyOrEmpty s.status_code) = "ERROR"
        ∨ pyUpper (pyOrEmpty s.status_code) = "ERROR_UPLOADING" →
        pollLoop (s :: rest) b w = (.pipelineError, [(b, w)])
        ∧ (mainRun probe create (s :: rest) pub).1 = MainOutcome.pipelineError
        ∧ exitCode (mainRun probe create (s :: rest) pub).1 = 1
        ∧ (mainRun probe create (s :: rest) pub).2.publishCalled = false
        ∧ (mainRun probe create (s :: rest) pub).2.statusPolls = 1)
    ∧ (pyUpper (pyOrEmpty s.status_code) ≠ "FINISHED" →
        pyUpper (pyOrEmpty s.status_code) ≠ "ERROR" →
        pyUpper (pyOrEmpty s.status_code) ≠ "ERROR_UPLOADING" →
        w + b < 900 →
        pollLoop (s :: rest) b w
          = ((pollLoop rest (backoffStep b) (w + b)).1,
             (b, w) :: (pollLoop rest (backoffStep b) (w + b)).2)) := by
  refine ⟨?_, ?_, ?_⟩
  · intro hfin
    have hloop : pollLoop (s :: rest) b w = (.finished, [(b, w)]) := by
      simp [pollLoop, hne, hfin]
    have hloop0 : pollLoop (s :: rest) 5 0 = (.finished, [(5, 0)]) := by
      simp [pollLoop, hne, hfin]
    refine ⟨hloop, ?_⟩
    simp [mainRun, hp, hc, hid, hloop0, afterPoll_finished_publishCalled]
  · intro herr
    have hnf : pyUpper (pyOrEmpty s.status_code) ≠ "FINISHED" := by
      rcases herr with h | h <;> rw [h] <;> decide
    have hloop : pollLoop (s :: rest) b w = (.pipelineError, [(b, w)]) := by
      simp [pollLoop, hne, hnf, herr]
    have hloop0 : pollLoop (s :: rest) 5 0 = (.pipelineError, [(5, 0)]) := by
      simp [pollLoop, hne, hnf, herr]
    refine ⟨hloop, ?_, ?_, ?_, ?_⟩ <;>
      simp [mainRun, hp, hc, hid, hloop0, afterPoll, exitCode]
  · intro hnf he1 he2 hceil
    have hnc : ¬ 900 ≤ w + b := by omega
    simp [pollLoop, hne, hnf, he1, he2, hnc]

/-- Witness for C8: first status `error_uploading` (uppercased by the
loop) with a further `FINISHED` response available: one poll only, no
publish, exit 1. -/
theorem claim_C8_status_transitions_witness :
    pollLoop [⟨false, some "error_uploading"⟩, ⟨false, some "FINISHED"⟩] 5 0
        = (.pipelineError, [(5, 0)])
    ∧ (mainRun (true, "OK") ⟨false, some "123"⟩
        [⟨false, some "error_uploading"⟩, ⟨false, some "FINISHED"⟩]
        ⟨false, some "456"⟩).1 = MainOutcome.pipelineError
    ∧ exitCode (mainRun (true, "OK") ⟨false, some "123"⟩
        [⟨false, some "error_uploading"⟩, ⟨false, some "FINISHED"⟩]
        ⟨false, some "456"⟩).1 = 1
    ∧ (mainRun (true, "OK") ⟨false, some "123"⟩
        [⟨false, some "error_uploading"⟩, ⟨false, some "FINISHED"⟩]
        ⟨false, some "456"⟩).2.publishCalled = false
    ∧ (mainRun (true, "OK") ⟨false, some "123"⟩
        [⟨false, some "error_uploading"⟩, ⟨false, some "FINISHED"⟩]
        ⟨false, some "456"⟩).2.statusPolls = 1 :=
  (claim_C8_status_transitions ⟨false, some "error_uploading"⟩
      [⟨false, some "FINISHED"⟩] 5 0 (true, "OK") ⟨false, some "123"⟩
      ⟨false, some "456"⟩ rfl rfl rfl (by decide)).2.1 (Or.inr (by decide))

/-- **C10.** Polling-loop invariants from the initial state
`backoff = 5`, `waited = 0`: every issued poll sees
`5 ≤ backoff ≤ 60` and `waited < 900`, the backoff never decreases
between consecutive polls, and a timeout exit carries a final waited
time between 900 and 959 inclusive. -/
theorem claim_C10_poll_invariants (statuses : List StatusResp) :
    (∀ p ∈ (pollLoop statuses 5 0).2, 5 ≤ p.1 ∧ p.1 ≤ 60 ∧ p.2 < 900)
    ∧ List.Chain' (fun p q : Nat × Nat => p.1 ≤ q.1) (pollLoop statuses 5 0).2
    ∧ (∀ wf, (pollLoop statuses 5 0).1 = PollOutcome.timedOut wf →
        900 ≤ wf ∧ wf ≤ 959) :=
  pollLoop_invariant statuses 5 0 (by decide) (by decide) (by decide)

/-- Witness for C10: a run of 20 `IN_PROGRESS` responses times out at
waited time 921, inside `[900, 959]`; the first poll state `(5, 0)` is in
the trace and satisfies the bounds. -/
theorem claim_C10_poll_invariants_witness :
    ((5, 0) ∈ (pollLoop (List.replicate 20 ⟨false, some "IN_PROGRESS"⟩) 5 0).2
      ∧ (5 ≤ (5, 0).1 ∧ (5, 0).1 ≤ 60 ∧ (5, 0).2 < 900))
    ∧ ((pollLoop (List.replicate 20 ⟨false, some "IN_PROGRESS"⟩) 5 0).1
          = PollOutcome.timedOut 921
      ∧ (900 ≤ 921 ∧ 921 ≤ 959)) :=
  ⟨⟨by decide,
      (claim_C10_poll_invariants
          (List.replicate 20 ⟨false, some "IN_PROGRESS"⟩)).1 (5, 0) (by decide)⟩,
    ⟨by decide,
      (claim_C10_poll_invariants
          (List.replicate 20 ⟨false, some "IN_PROGRESS"⟩)).2.2 921 (by decide)⟩⟩

/-- Witness for C9 at a concrete run: probe OK, creation id `"123"`,
first poll `FINISHED`, publish succeeds without an id. -/
theorem claim_C9_publish_soft_success_witness :
    (mainRun (true, "OK") ⟨false, some "123"⟩ [⟨false, some "FINISHED"⟩]
        ⟨false, none⟩).1 = MainOutcome.publishedNoId
    ∧ exitCode (mainRun (true, "OK") ⟨false, some "123"⟩ [⟨false, some "FINISHED"⟩]
        ⟨false, none⟩).1 = 0
    ∧ (mainRun (true, "OK") ⟨false, some "123"⟩ [⟨false, some "FINISHED"⟩]
        ⟨false, none⟩).2.permalinkCalled = false
    ∧ (mainRun (true, "OK") ⟨false, some "123"⟩ [⟨false, some "FINISHED"⟩]
        ⟨false, none⟩).2.publishCalled = true :=
  claim_C9_publish_soft_success (true, "OK") ⟨false, some "123"⟩
    [⟨false, some "FINISHED"⟩] ⟨false, none⟩ rfl rfl (by decide) (by decide) rfl
    (by decide)

end PostReels
